import Mathlib

/-!
Verification development for `evernote2md` (`src/evernote2md/__main__.py`).

The file gives a shallow embedding of the document-to-entry pipeline:

* an HTML document is a tree of text nodes and elements (the program receives
  the tree from BeautifulSoup; we take the tree directly);
* `convert_meta`, `convert_div`, `convert_img` embed the three overridden
  handlers of `EvernoteConverter`, and `convertForest`/`convertElem` embed
  markdownify's `process_tag` children loop (text children are concatenated,
  element children are joined with the newline-merging rule; elements whose
  tag has no conversion function pass their children's text through);
* `strptimeZ` embeds CPython `datetime.strptime` with format
  `%Y%m%dT%H%M%S%z` (the field regexes of `_strptime.TimeRE`, tried in the
  regex's backtracking order, first full match wins, followed by the
  date/field validation that `datetime` construction performs);
* `astimezoneLondon` embeds `datetime.astimezone(pytz.timezone("Europe/London"))`
  under the modern (post-1972) UK rule: BST between 01:00 UTC on the last
  Sunday of March and 01:00 UTC on the last Sunday of October, otherwise GMT;
* `pyFloat` embeds CPython `float(str)`: optional surrounding whitespace,
  optional sign, `inf`/`infinity`/`nan` (case-insensitive) or a decimal
  literal with optional fraction/exponent and underscores between digits.
  Finite values are modelled exactly as rationals (IEEE-754 rounding and
  overflow to infinity are abstracted away; acceptance/rejection of the
  string is modelled faithfully);
* `fromHtml` embeds `EvernoteEntry.from_html` (argument evaluation order of
  the Python call: created, updated, latitude, longitude, altitude), and
  `markdown_directory`/`markdown_file` embed the two path properties.

Not modelled: markdownify's own conversion functions for tags other than
`img` (`hr`, `br`, `p`, `li`, `b`, ...).  In the embedding every such tag
passes its children's text through, which is markdownify's behaviour for
tags *without* a conversion function (`span`, `body`, ...) but not for tags
that have one (`hr` yields a rule, `p` adds blank lines, ...).  No theorem
in this file depends on the text such tags produce: the text-related
statements are either local to the three overridden handlers or restricted
(in the one whole-document emptiness statement) to documents whose
top-level nodes are `meta`/`div` containers, which discard their children's
text wholesale.  Also not modelled: whitespace pruning inside list/table
elements, the `convert_as_inline` flag (always `False` outside
headings/cells), and escaping beyond `*` and `_`.
-/

/-! ## Python string helpers -/

/-- Whitespace characters stripped by Python's `str.strip()` (ASCII subset). -/
def isPySpace (c : Char) : Bool :=
  c = ' ' || c = '\t' || c = '\n' || c = '\r' || c = '\x0b' || c = '\x0c'

/-- Python `str.strip()` on a character list. -/
def pyStripList (l : List Char) : List Char :=
  ((l.dropWhile isPySpace).reverse.dropWhile isPySpace).reverse

/-- Python `str.strip()`. -/
def pyStrip (s : String) : String :=
  String.mk (pyStripList s.data)

/-- Collapse runs of tabs and spaces to a single space
(markdownify's `whitespace_re.sub(' ', text)` with `whitespace_re = [\t ]+`).
The boolean argument records whether the previous character was a tab/space. -/
def collapseWsAux : Bool → List Char → List Char
  | _, [] => []
  | prev, c :: rest =>
    if c = ' ' || c = '\t' then
      if prev then collapseWsAux true rest else ' ' :: collapseWsAux true rest
    else c :: collapseWsAux false rest

/-- Markdownify's escaping of `*` and `_` (default options). -/
def escapeMd : List Char → List Char
  | [] => []
  | c :: r =>
    if c = '*' then '\\' :: '*' :: escapeMd r
    else if c = '_' then '\\' :: '_' :: escapeMd r
    else c :: escapeMd r

/-- Markdownify `process_text` on a text node: whitespace normalisation then
escaping (the `pre`/`code` ancestor checks and `li` special case do not arise
for the claims). -/
def processText (t : String) : String :=
  String.mk (escapeMd (collapseWsAux false t.data))

/-- Drop trailing newline characters (Python `text.rstrip('\n')`). -/
def dropTrailNL (l : List Char) : List Char :=
  (l.reverse.dropWhile (fun c => c = '\n')).reverse

/-- Drop leading newline characters (Python `text.lstrip('\n')`). -/
def dropLeadNL (l : List Char) : List Char :=
  l.dropWhile (fun c => c = '\n')

/-- Markdownify `process_tag`'s join of accumulated text with the text of the
next element child: trailing/leading newlines are merged, keeping the larger
count. -/
def mergeNL (acc next : String) : String :=
  let a := dropTrailNL acc.data
  let b := dropLeadNL next.data
  let left := acc.data.length - a.length
  let right := next.data.length - b.length
  String.mk (a ++ List.replicate (max left right) '\n' ++ b)

/-! ## Calendar arithmetic (CPython `datetime`) -/

/-- Gregorian leap year. -/
def isLeap (y : Nat) : Bool :=
  (y % 4 = 0 && y % 100 ≠ 0) || y % 400 = 0

/-- Days in a month (months numbered 1..12). -/
def daysInMonth (y m : Nat) : Nat :=
  if m = 2 then (if isLeap y then 29 else 28)
  else if m = 4 || m = 6 || m = 9 || m = 11 then 30
  else 31

/-- Days before January 1 of year `y` (proleptic Gregorian, year 1 based). -/
def daysBeforeYear (y : Nat) : Nat :=
  365 * (y - 1) + (y - 1) / 4 - (y - 1) / 100 + (y - 1) / 400

/-- Days in year `y` before the first of month `m`. -/
def daysBeforeMonth (y m : Nat) : Nat :=
  (List.range (m - 1)).foldl (fun acc i => acc + daysInMonth y (i + 1)) 0

/-- Proleptic Gregorian ordinal of a date, day 1 being 0001-01-01
(CPython `date.toordinal`). -/
def toOrdinal (y m d : Nat) : Nat :=
  daysBeforeYear y + daysBeforeMonth y m + d

/-- Find the month containing day number `n` (0-based within the year); the
fuel argument is always called with 12. Mirrors the month loop of CPython's
`_ord2ymd`. -/
def monthFromDays (y : Nat) : Nat → Nat → Nat → Nat × Nat
  | m, n, 0 => (m, n + 1)
  | m, n, fuel + 1 =>
    if n < daysInMonth y m then (m, n + 1)
    else monthFromDays y (m + 1) (n - daysInMonth y m) fuel

/-- Date from a proleptic Gregorian ordinal (CPython `_ord2ymd`). -/
def ord2ymd (ordinal : Nat) : Nat × Nat × Nat :=
  let n := ordinal - 1
  let n400 := n / 146097
  let n := n % 146097
  let n100 := n / 36524
  let n := n % 36524
  let n4 := n / 1461
  let n := n % 1461
  let n1 := n / 365
  let n := n % 365
  let year := n400 * 400 + n100 * 100 + n4 * 4 + n1 + 1
  if n1 = 4 || n100 = 4 then (year - 1, 12, 31)
  else
    let md := monthFromDays year 1 n 12
    (year, md.1, md.2)

/-- Weekday of a date, Monday = 0 .. Sunday = 6 (CPython `date.weekday`). -/
def weekdayOf (y m d : Nat) : Nat :=
  (toOrdinal y m d - 1) % 7

/-- Day of month of the last Sunday of month `m` of year `y`. -/
def lastSundayDay (y m : Nat) : Nat :=
  daysInMonth y m - ((weekdayOf y m (daysInMonth y m) + 1) % 7)

/-- Microseconds per day. -/
def microPerDay : Nat := 86400000000

/-- Naive (timezone-less) local timestamp, as stored inside a Python
`datetime`. -/
structure PlainDT where
  year : Nat
  month : Nat
  day : Nat
  hour : Nat
  minute : Nat
  second : Nat
  microsec : Nat
deriving DecidableEq, Repr

/-- Microseconds since 0001-01-01 00:00:00 of a naive timestamp. -/
def tsMicro (t : PlainDT) : Nat :=
  (toOrdinal t.year t.month t.day - 1) * microPerDay +
    t.hour * 3600000000 + t.minute * 60000000 + t.second * 1000000 + t.microsec

/-- Naive timestamp from microseconds since 0001-01-01 00:00:00. -/
def microToDT (n : Nat) : PlainDT :=
  let days := n / microPerDay
  let rem := n % microPerDay
  let ymd := ord2ymd (days + 1)
  { year := ymd.1, month := ymd.2.1, day := ymd.2.2,
    hour := rem / 3600000000, minute := rem % 3600000000 / 60000000,
    second := rem % 60000000 / 1000000, microsec := rem % 1000000 }

/-- Start of British Summer Time in year `y` (01:00 UTC, last Sunday of
March), in microseconds since 0001-01-01 00:00:00 UTC. -/
def bstStartMicro (y : Nat) : Nat :=
  (toOrdinal y 3 (lastSundayDay y 3) - 1) * microPerDay + 3600000000

/-- End of British Summer Time in year `y` (01:00 UTC, last Sunday of
October), in microseconds since 0001-01-01 00:00:00 UTC. -/
def bstEndMicro (y : Nat) : Nat :=
  (toOrdinal y 10 (lastSundayDay y 10) - 1) * microPerDay + 3600000000

/-- UTC offset of Europe/London, in minutes, at a UTC instant (modern rule). -/
def londonOffsetMin (u : Nat) : Nat :=
  let y := (ord2ymd (u / microPerDay + 1)).1
  if bstStartMicro y ≤ u ∧ u < bstEndMicro y then 60 else 0

/-- Timezone-aware Python `datetime`: local wall-clock fields, the UTC offset
of its `tzinfo` in microseconds, and the abbreviation `tzname()` returns. -/
structure ZonedDT where
  dt : PlainDT
  offMicro : Int
  abbr : String
deriving DecidableEq, Repr

/-- Zero-pad a natural number to two digits. -/
def pad2 (n : Nat) : String :=
  if n < 10 then "0" ++ toString n else toString n

/-- Zero-pad a natural number to four digits. -/
def pad4 (n : Nat) : String :=
  if n < 10 then "000" ++ toString n
  else if n < 100 then "00" ++ toString n
  else if n < 1000 then "0" ++ toString n
  else toString n

/-- Zero-pad a natural number to six digits. -/
def pad6 (n : Nat) : String :=
  if n < 10 then "00000" ++ toString n
  else if n < 100 then "0000" ++ toString n
  else if n < 1000 then "000" ++ toString n
  else if n < 10000 then "00" ++ toString n
  else if n < 100000 then "0" ++ toString n
  else toString n

/-- Name of a fixed-offset `datetime.timezone`
(CPython `timezone._name_from_offset`; `UTC` for offset zero). -/
def offAbbr (off : Int) : String :=
  if off = 0 then "UTC"
  else
    let sgn := if off < 0 then "-" else "+"
    let a := off.natAbs
    let secs := a / 1000000
    let micro := a % 1000000
    "UTC" ++ sgn ++ pad2 (secs / 3600) ++ ":" ++ pad2 (secs % 3600 / 60) ++
      (if secs % 60 = 0 ∧ micro = 0 then ""
       else ":" ++ pad2 (secs % 60) ++ (if micro = 0 then "" else "." ++ pad6 micro))

/-- Python `dt.astimezone(pytz.timezone("Europe/London"))`: convert to the
UTC instant, look up the London offset there, and re-localise.  Instants
before 0001-01-01 00:00 UTC do not arise for the inputs considered. -/
def astimezoneLondon (z : ZonedDT) : ZonedDT :=
  let utc : Int := (tsMicro z.dt : Int) - z.offMicro
  let u := utc.toNat
  let off := londonOffsetMin u
  { dt := microToDT (u + off * 60000000),
    offMicro := (off : Int) * 60000000,
    abbr := if off = 0 then "GMT" else "BST" }

/-! ## `datetime.strptime` with format `%Y%m%dT%H%M%S%z` -/

/-- Numeric value of a decimal digit character. -/
def dVal (c : Char) : Nat := c.toNat - 48

/-- Candidate parses of `%Y` (regex `\d\d\d\d`): exactly four digits. -/
def matchYear (cs : List Char) : List (Nat × List Char) :=
  match cs with
  | a :: b :: c :: d :: r =>
    if a.isDigit && b.isDigit && c.isDigit && d.isDigit then
      [(dVal a * 1000 + dVal b * 100 + dVal c * 10 + dVal d, r)]
    else []
  | _ => []

/-- Candidate parses of `%m` (regex `1[0-2]|0[1-9]|[1-9]`), in the regex's
backtracking order. -/
def matchMonth (cs : List Char) : List (Nat × List Char) :=
  (match cs with
   | '1' :: c :: r => if '0' ≤ c ∧ c ≤ '2' then [(10 + dVal c, r)] else []
   | _ => []) ++
  (match cs with
   | '0' :: c :: r => if '1' ≤ c ∧ c ≤ '9' then [(dVal c, r)] else []
   | _ => []) ++
  (match cs with
   | c :: r => if '1' ≤ c ∧ c ≤ '9' then [(dVal c, r)] else []
   | _ => [])

/-- Candidate parses of `%d` (regex `3[01]|[1-2]\d|0[1-9]|[1-9]`). -/
def matchDay (cs : List Char) : List (Nat × List Char) :=
  (match cs with
   | '3' :: c :: r => if '0' ≤ c ∧ c ≤ '1' then [(30 + dVal c, r)] else []
   | _ => []) ++
  (match cs with
   | a :: b :: r =>
     if ('1' ≤ a ∧ a ≤ '2') ∧ b.isDigit then [(dVal a * 10 + dVal b, r)] else []
   | _ => []) ++
  (match cs with
   | '0' :: c :: r => if '1' ≤ c ∧ c ≤ '9' then [(dVal c, r)] else []
   | _ => []) ++
  (match cs with
   | c :: r => if '1' ≤ c ∧ c ≤ '9' then [(dVal c, r)] else []
   | _ => [])

/-- Candidate parses of `%H` (regex `2[0-3]|[0-1]\d|\d`). -/
def matchHour (cs : List Char) : List (Nat × List Char) :=
  (match cs with
   | '2' :: c :: r => if '0' ≤ c ∧ c ≤ '3' then [(20 + dVal c, r)] else []
   | _ => []) ++
  (match cs with
   | a :: b :: r =>
     if ('0' ≤ a ∧ a ≤ '1') ∧ b.isDigit then [(dVal a * 10 + dVal b, r)] else []
   | _ => []) ++
  (match cs with
   | c :: r => if c.isDigit then [(dVal c, r)] else []
   | _ => [])

/-- Candidate parses of `%M` (regex `[0-5]\d|\d`). -/
def matchMin (cs : List Char) : List (Nat × List Char) :=
  (match cs with
   | a :: b :: r =>
     if ('0' ≤ a ∧ a ≤ '5') ∧ b.isDigit then [(dVal a * 10 + dVal b, r)] else []
   | _ => []) ++
  (match cs with
   | c :: r => if c.isDigit then [(dVal c, r)] else []
   | _ => [])

/-- Candidate parses of `%S` (regex `6[0-1]|[0-5]\d|\d`). -/
def matchSec (cs : List Char) : List (Nat × List Char) :=
  (match cs with
   | '6' :: c :: r => if '0' ≤ c ∧ c ≤ '1' then [(60 + dVal c, r)] else []
   | _ => []) ++
  (match cs with
   | a :: b :: r =>
     if ('0' ≤ a ∧ a ≤ '5') ∧ b.isDigit then [(dVal a * 10 + dVal b, r)] else []
   | _ => []) ++
  (match cs with
   | c :: r => if c.isDigit then [(dVal c, r)] else []
   | _ => [])

/-- The literal `T` of the format (matched case-insensitively: `_strptime`
compiles its regex with `re.IGNORECASE`). -/
def matchSep (cs : List Char) : List (List Char) :=
  match cs with
  | c :: r => if c = 'T' || c = 't' then [r] else []
  | _ => []

/-- Candidate parses of the fractional part of `%z` (regex `\.\d{1,6}`
applied after the dot), longest first; the value is in microseconds. -/
def fracOpts (cs : List Char) : List (Nat × List Char) :=
  let ds := (cs.takeWhile Char.isDigit).take 6
  (List.range ds.length).map (fun i =>
    let len := ds.length - i
    let v := (ds.take len).foldl (fun a c => a * 10 + dVal c) 0
    (v * 10 ^ (6 - len), cs.drop len))

/-- Candidate parses of `%z`
(regex `[+-]\d\d:?[0-5]\d(:[0-5]\d(\.\d{1,6})?)?|(?-i:Z)`), in backtracking
order; the value is the UTC offset in microseconds. -/
def matchZone (cs : List Char) : List (Int × List Char) :=
  (match cs with
   | sgn :: h1 :: h2 :: r =>
     if (sgn = '+' ∨ sgn = '-') ∧ h1.isDigit ∧ h2.isDigit then
       let sign : Int := if sgn = '-' then -1 else 1
       let hh := dVal h1 * 10 + dVal h2
       let afterColon : List (List Char) :=
         (match r with | ':' :: r2 => [r2] | _ => []) ++ [r]
       afterColon.flatMap (fun rm =>
         match rm with
         | m1 :: m2 :: r3 =>
           if ('0' ≤ m1 ∧ m1 ≤ '5') ∧ m2.isDigit then
             let mm := dVal m1 * 10 + dVal m2
             let secOpts : List (Nat × Nat × List Char) :=
               (match r3 with
                | ':' :: s1 :: s2 :: r4 =>
                  if ('0' ≤ s1 ∧ s1 ≤ '5') ∧ s2.isDigit then
                    let ss := dVal s1 * 10 + dVal s2
                    (match r4 with
                     | '.' :: r5 => (fracOpts r5).map (fun fr => (ss, fr.1, fr.2))
                     | _ => []) ++ [(ss, 0, r4)]
                  else []
                | _ => []) ++ [(0, 0, r3)]
             secOpts.map (fun so =>
               (sign * (((hh * 3600 + mm * 60 + so.1) * 1000000 + so.2.1 : Nat) : Int),
                so.2.2))
           else []
         | _ => [])
     else []
   | _ => []) ++
  (match cs with
   | 'Z' :: r => [((0 : Int), r)]
   | _ => [])

/-- One candidate full match of the format. -/
structure TsRaw where
  y : Nat
  mo : Nat
  d : Nat
  h : Nat
  mi : Nat
  s : Nat
  offMicro : Int
  rest : List Char
deriving Repr

/-- All candidate matches of `%Y%m%dT%H%M%S%z` against the input, in the
backtracking order of the compiled regex. -/
def tsCandidates (cs : List Char) : List TsRaw :=
  (matchYear cs).flatMap (fun yr =>
  (matchMonth yr.2).flatMap (fun mo =>
  (matchDay mo.2).flatMap (fun dy =>
  (matchSep dy.2).flatMap (fun r4 =>
  (matchHour r4).flatMap (fun hr =>
  (matchMin hr.2).flatMap (fun mi =>
  (matchSec mi.2).flatMap (fun sec =>
  (matchZone sec.2).map (fun z =>
    { y := yr.1, mo := mo.1, d := dy.1, h := hr.1, mi := mi.1, s := sec.1,
      offMicro := z.1, rest := z.2 }))))))))

/-- CPython `datetime.strptime(s, "%Y%m%dT%H%M%S%z")`: the first candidate
that consumes the whole string (the regex requires a full match), then the
validation performed when the `datetime` and its fixed-offset timezone are
constructed (real year, day within the month, seconds below 60, offset
strictly within 24 hours).  `none` models the `ValueError` raised on
failure. -/
def strptimeZ (s : String) : Option ZonedDT :=
  match (tsCandidates s.data).filter (fun t => t.rest.isEmpty) with
  | [] => none
  | t :: _ =>
    if 1 ≤ t.y ∧ t.s ≤ 59 ∧ t.d ≤ daysInMonth t.y t.mo ∧
        t.offMicro.natAbs < 86400000000 then
      some { dt := { year := t.y, month := t.mo, day := t.d, hour := t.h,
                     minute := t.mi, second := t.s, microsec := 0 },
             offMicro := t.offMicro, abbr := offAbbr t.offMicro }
    else none

/-! ## Python `float(str)` -/

/-- Value of a Python float: finite values are modelled exactly as the
rational value of the accepted decimal literal. -/
inductive PFloat where
  | finite (q : Rat) : PFloat
  | inf (neg : Bool) : PFloat
  | nan : PFloat
deriving DecidableEq, Repr

/-- Longest run of digits, allowing single underscores between digits
(Python numeric-literal underscores); returns the digits (underscores
removed) and the unconsumed remainder.  Only called when the first character
is a digit. -/
def digitRunAux : List Char → List Char × List Char
  | [] => ([], [])
  | c :: r =>
    if c.isDigit then
      let p := digitRunAux r
      (c :: p.1, p.2)
    else if c = '_' then
      match r with
      | d :: r2 =>
        if d.isDigit then
          let p := digitRunAux r2
          (d :: p.1, p.2)
        else ([], c :: r)
      | [] => ([], [c])
    else ([], c :: r)

/-- Digit run starting at the head of the input, or `none` when the head is
not a digit. -/
def digitRun (cs : List Char) : Option (List Char × List Char) :=
  match cs with
  | c :: _ => if c.isDigit then some (digitRunAux cs) else none
  | [] => none

/-- Numeric value of a digit list. -/
def digitsVal (ds : List Char) : Nat :=
  ds.foldl (fun a c => a * 10 + dVal c) 0

/-- Finite float value of sign, integer digits, fraction digits and signed
exponent: `±(digits of ip.fp) * 10^(±ev)` as an exact rational. -/
def mkFinite (neg : Bool) (ip fp : List Char) (eneg : Bool) (ev : Nat) : PFloat :=
  let denomPow := fp.length + (if eneg then ev else 0)
  let numPow := if eneg then 0 else ev
  let mant : Nat := digitsVal (ip ++ fp) * 10 ^ numPow
  let num : Int := if neg then -(mant : Int) else (mant : Int)
  .finite (mkRat num (10 ^ denomPow))

/-- Parse the optional exponent part and require that the input is fully
consumed. -/
def parseExp (neg : Bool) (ip fp : List Char) : List Char → Option PFloat
  | [] => some (mkFinite neg ip fp false 0)
  | e :: r1 =>
    if e = 'e' || e = 'E' then
      let sr : Bool × List Char :=
        match r1 with
        | '+' :: r2 => (false, r2)
        | '-' :: r2 => (true, r2)
        | _ => (false, r1)
      match digitRun sr.2 with
      | some p => if p.2.isEmpty then some (mkFinite neg ip fp sr.1 (digitsVal p.1)) else none
      | none => none
    else none

/-- Parse the body of a float literal after the optional sign. -/
def pyFloatBody (neg : Bool) (cs1 : List Char) : Option PFloat :=
  let low := cs1.map Char.toLower
  if low = "inf".data ∨ low = "infinity".data then some (.inf neg)
  else if low = "nan".data then some .nan
  else
    match digitRun cs1 with
    | some p =>
      (match p.2 with
       | '.' :: r2 =>
         (match digitRun r2 with
          | some fpp => parseExp neg p.1 fpp.1 fpp.2
          | none => parseExp neg p.1 [] r2)
       | _ => parseExp neg p.1 [] p.2)
    | none =>
      match cs1 with
      | '.' :: r2 =>
        (match digitRun r2 with
         | some fpp => parseExp neg [] fpp.1 fpp.2
         | none => none)
      | _ => none

/-- CPython `float(str)`; `none` models the `ValueError` on a string that is
not a float literal. -/
def pyFloat (s : String) : Option PFloat :=
  let cs := pyStripList s.data
  match cs with
  | [] => none
  | '+' :: r => if r.isEmpty then none else pyFloatBody false r
  | '-' :: r => if r.isEmpty then none else pyFloatBody true r
  | _ => pyFloatBody false cs

/-! ## HTML documents -/

/-! A parsed HTML tree: text nodes and elements with a tag name, an
attribute list and children (`HForest`).  This is the tree BeautifulSoup
hands to markdownify. -/
mutual
inductive HNode : Type where
  | text : String → HNode
  | elem : String → List (String × String) → HForest → HNode

inductive HForest : Type where
  | nil : HForest
  | cons : HNode → HForest → HForest
end

/-- Build a forest from a list of nodes. -/
def forestOf : List HNode → HForest
  | [] => .nil
  | n :: r => .cons n (forestOf r)

/-- Attribute lookup (`el.get(name)` / `el[name]` in BeautifulSoup; `none`
models a missing attribute, i.e. `None` / `KeyError`). -/
def getAttr (attrs : List (String × String)) (k : String) : Option String :=
  (attrs.find? (fun p => p.1 == k)).map (fun p => p.2)

/-- Class tokens of an element: BeautifulSoup exposes the `class` attribute
as its whitespace-separated token list. -/
def classTokens (v : String) : List String :=
  v.split (fun c => c.isWhitespace)

/-- Whether the element's `class` attribute exists and contains the token
`para` (the test `"para" in el["class"]`; a missing attribute is the
`KeyError` the handler swallows). -/
def hasPara (attrs : List (String × String)) : Bool :=
  match getAttr attrs "class" with
  | some v => (classTokens v).contains "para"
  | none => false

/-! ## The extractor (`EvernoteConverter`) -/

/-- The side-channel state of one `EvernoteConverter` instance (the
attribute names follow `__init__`, including the `latitide` typo). -/
structure ConvState where
  found_title : String
  found_tags : Finset String
  time_created : String
  time_updated : String
  latitide : String
  longitude : String
  altitude : String
  photos : List String
deriving DecidableEq

/-- The state set up by `EvernoteConverter.__init__`. -/
def initConvState : ConvState :=
  { found_title := "", found_tags := ∅, time_created := "", time_updated := "",
    latitide := "", longitude := "", altitude := "", photos := [] }

/-- `EvernoteConverter.convert_meta`: record the recognised
`itemprop`/`content` pair in the side channels and contribute no text.
Elements missing either attribute and unrecognised property names fall
through unchanged. -/
def convert_meta (s : ConvState) (attrs : List (String × String)) :
    ConvState × String :=
  match getAttr attrs "itemprop", getAttr attrs "content" with
  | some item_property, some content =>
    (if item_property = "tag" then { s with found_tags := insert content s.found_tags }
     else if item_property = "title" then { s with found_title := content }
     else if item_property = "created" then { s with time_created := content }
     else if item_property = "updated" then { s with time_updated := content }
     else if item_property = "latitude" then { s with latitide := content }
     else if item_property = "longitude" then { s with longitude := content }
     else if item_property = "altitude" then { s with altitude := content }
     else s, "")
  | _, _ => (s, "")

/-- `EvernoteConverter.convert_div`: a `div` whose class list contains
`para` contributes its children's text stripped plus a newline; any other
`div` (including one with no class attribute) contributes nothing. -/
def convert_div (attrs : List (String × String)) (text : String) : String :=
  if hasPara attrs then pyStrip text ++ "\n" else ""

/-- Markdownify's default `convert_img` (the `super()` call):
`![alt](src "title")` with missing attributes read as empty strings. -/
def default_convert_img (attrs : List (String × String)) (_text : String) : String :=
  let alt := (getAttr attrs "alt").getD ""
  let src := (getAttr attrs "src").getD ""
  let title := (getAttr attrs "title").getD ""
  let titlePart :=
    if title = "" then ""
    else " \"" ++ title.replace "\"" "\\\"" ++ "\""
  "![" ++ alt ++ "](" ++ src ++ titlePart ++ ")"

/-- `EvernoteConverter.convert_img`: append the `src` attribute (when
present) to the photo list and fall through to the default conversion. -/
def convert_img (s : ConvState) (attrs : List (String × String)) (text : String) :
    ConvState × String :=
  let s2 :=
    match getAttr attrs "src" with
    | some v => { s with photos := s.photos ++ [v] }
    | none => s
  (s2, default_convert_img attrs text)

/-! The children loop of markdownify `process_tag` (text children are
concatenated after `process_text`, element children are joined with the
newline merge) and the per-element dispatch (`convert_meta` / `convert_div`
/ `convert_img` are the overridden handlers; a tag without a conversion
function passes its children's text through).  Children are converted before
the element's own handler runs, so side effects happen bottom-up,
left-to-right. -/
/-- How markdownify's children loop joins the text produced so far with one
child's text: a text child is appended verbatim, an element child is joined
with the newline merge. -/
def joinText : HNode → String → String → String
  | .text _, acc, t => acc ++ t
  | .elem _ _ _, acc, t => mergeNL acc t

mutual
def convertNode (s : ConvState) : HNode → ConvState × String
  | .text t => (s, processText t)
  | .elem tag attrs cs =>
    let p := convertForest s "" cs
    if tag = "meta" then convert_meta p.1 attrs
    else if tag = "div" then (p.1, convert_div attrs p.2)
    else if tag = "img" then convert_img p.1 attrs p.2
    else (p.1, p.2)

def convertForest (s : ConvState) (acc : String) : HForest → ConvState × String
  | .nil => (s, acc)
  | .cons n rest =>
    let p := convertNode s n
    convertForest p.1 (joinText n acc p.2) rest
end

/-- One full run of the extractor over a document
(`EvernoteConverter().convert(html)` together with the final side-channel
state). -/
def convertHtml (doc : HForest) : ConvState × String :=
  convertForest initConvState "" doc

/-! ## Entry assembly (`EvernoteEntry`) -/

/-- The display timezone constant `TIMEZONE = "Europe/London"` is embedded
in `astimezoneLondon`; this definition records the identifier. -/
def TIMEZONE : String := "Europe/London"

/-- The `EvernoteEntry` named tuple. -/
structure EvernoteEntry where
  title : String
  text : String
  tags : Finset String
  time_created : ZonedDT
  time_updated : ZonedDT
  latitude : Option PFloat
  longitude : Option PFloat
  altitude : Option PFloat
  photos : List String
deriving DecidableEq

/-- The two kinds of `ValueError` assembly can raise: a timestamp that
`strptime` rejects, and a coordinate string that `float` rejects. -/
inductive PyValueError where
  | timestampFormat : PyValueError
  | floatLiteral : PyValueError
deriving DecidableEq, Repr

/-- Result of `EvernoteEntry.from_html`: an entry, or the `ValueError`
that aborted assembly. -/
inductive AssembleResult where
  | entry : EvernoteEntry → AssembleResult
  | error : PyValueError → AssembleResult
deriving DecidableEq

/-- The coordinate coercion `float(raw) if raw else None`: `some none` for
an empty raw string, `some (some v)` for a parsed value, `none` for the
`ValueError` on a non-empty non-numeric string. -/
def coordOf (raw : String) : Option (Option PFloat) :=
  if raw = "" then some none
  else (pyFloat raw).map some

/-- `EvernoteEntry.from_html`: run the extractor, strip the converted text,
then build the tuple.  The fallible conversions run in Python's argument
evaluation order: `created`, `updated`, `latitude`, `longitude`,
`altitude`; the first failure aborts assembly. -/
def fromHtml (doc : HForest) : AssembleResult :=
  let p := convertHtml doc
  let s := p.1
  let markdown := pyStrip p.2
  match strptimeZ s.time_created with
  | none => .error .timestampFormat
  | some tc =>
    match strptimeZ s.time_updated with
    | none => .error .timestampFormat
    | some tu =>
      match coordOf s.latitide with
      | none => .error .floatLiteral
      | some la =>
        match coordOf s.longitude with
        | none => .error .floatLiteral
        | some lo =>
          match coordOf s.altitude with
          | none => .error .floatLiteral
          | some al =>
            .entry { title := s.found_title, text := markdown,
                     tags := s.found_tags,
                     time_created := astimezoneLondon tc,
                     time_updated := astimezoneLondon tu,
                     latitude := la, longitude := lo, altitude := al,
                     photos := s.photos }

/-- `EvernoteEntry.markdown_directory`:
`self.time_created.strftime("%Y/%m/%d/")` as a `Path` (whose string form
drops the trailing slash). -/
def markdown_directory (e : EvernoteEntry) : String :=
  pad4 e.time_created.dt.year ++ "/" ++ pad2 e.time_created.dt.month ++ "/" ++
    pad2 e.time_created.dt.day

/-- `EvernoteEntry.markdown_file`:
`markdown_directory / time_created.strftime("%Y-%m-%d-%H-%M-%S-%f-%Z.md")`. -/
def markdown_file (e : EvernoteEntry) : String :=
  markdown_directory e ++ "/" ++
    pad4 e.time_created.dt.year ++ "-" ++ pad2 e.time_created.dt.month ++ "-" ++
    pad2 e.time_created.dt.day ++ "-" ++ pad2 e.time_created.dt.hour ++ "-" ++
    pad2 e.time_created.dt.minute ++ "-" ++ pad2 e.time_created.dt.second ++ "-" ++
    pad6 e.time_created.dt.microsec ++ "-" ++ e.time_created.abbr ++ ".md"

/-! ## Traversal-order collectors (specification helpers)

These recompute, by a separate walk in the same order as the conversion,
what the side channels accumulate; the lemmas below connect them to the
converter state. -/

/-- The `content` a well-formed metadata marker with property `p`
contributes (`none` when either attribute is missing or the property
differs). -/
def metaValOf (p : String) (attrs : List (String × String)) : Option String :=
  match getAttr attrs "itemprop", getAttr attrs "content" with
  | some ip, some c => if ip = p then some c else none
  | _, _ => none

/-! Values of all well-formed metadata markers with property `p`, in
traversal (side-effect) order. -/
mutual
def metaValsN (p : String) : HNode → List String
  | .text _ => []
  | .elem tag attrs cs =>
    metaValsF p cs ++ (if tag = "meta" then (metaValOf p attrs).toList else [])

def metaValsF (p : String) : HForest → List String
  | .nil => []
  | .cons n l => metaValsN p n ++ metaValsF p l
end

/-! The `src` attributes of all `img` elements, in traversal order. -/
mutual
def imgSrcsN : HNode → List String
  | .text _ => []
  | .elem tag attrs cs =>
    imgSrcsF cs ++ (if tag = "img" then (getAttr attrs "src").toList else [])

def imgSrcsF : HForest → List String
  | .nil => []
  | .cons n l => imgSrcsN n ++ imgSrcsF l
end

/-! No `div` in the tree carries the `para` class marker. -/
mutual
def noParaN : HNode → Bool
  | .text _ => true
  | .elem tag attrs cs => (if tag = "div" then !hasPara attrs else true) && noParaF cs

def noParaF : HForest → Bool
  | .nil => true
  | .cons n l => noParaN n && noParaF l
end

/-- The node is a metadata marker or a `div` container.  Both overridden
handlers return `""` whatever their children produced, so such a node never
contributes text of its own. -/
def containerOnlyN : HNode → Bool
  | .text _ => false
  | .elem tag _ _ => tag == "meta" || tag == "div"

/-- Every top-level node of the document is a metadata marker or a `div`
container (the layout of an Evernote export, where all content lives inside
such containers).  Nothing is assumed about the containers' contents: their
handlers discard the children's text wholesale. -/
def containerOnlyF : HForest → Bool
  | .nil => true
  | .cons n l => containerOnlyN n && containerOnlyF l

/-- Recognised non-tag metadata properties, each stored in its own slot. -/
def nonTagProps : List String :=
  ["title", "created", "updated", "latitude", "longitude", "altitude"]

/-- The slot of the converter state a recognised non-tag property is stored
in. -/
def fieldFor (p : String) (s : ConvState) : String :=
  if p = "title" then s.found_title
  else if p = "created" then s.time_created
  else if p = "updated" then s.time_updated
  else if p = "latitude" then s.latitide
  else if p = "longitude" then s.longitude
  else s.altitude

/-! ## Concrete documents and entries used by witnesses -/

/-- A metadata marker element. -/
def metaEl (p v : String) : HNode :=
  .elem "meta" [("itemprop", p), ("content", v)] .nil

/-- A well-formed `created` marker (Scenario A's timestamp). -/
def createdOK : HNode := metaEl "created" "20230115T093000+0000"

/-- A well-formed `updated` marker. -/
def updatedOK : HNode := metaEl "updated" "20230116T101112+0000"

/-- The London-localised value of the `created` timestamp above. -/
def tcLondon : ZonedDT :=
  { dt := { year := 2023, month := 1, day := 15, hour := 9, minute := 30,
            second := 0, microsec := 0 },
    offMicro := 0, abbr := "GMT" }

/-- The London-localised value of the `updated` timestamp above. -/
def tuLondon : ZonedDT :=
  { dt := { year := 2023, month := 1, day := 16, hour := 10, minute := 11,
            second := 12, microsec := 0 },
    offMicro := 0, abbr := "GMT" }

/-- Last element of a list, or the default when the list is empty, phrased
as the overwrite fold a sequence of assignments to one slot performs. -/
def lastD (xs : List String) (d : String) : String :=
  xs.foldl (fun _ v => v) d

/-- All property names `convert_meta` recognises. -/
def recognizedProps : List String := "tag" :: nonTagProps

/-- The converter state predicted from a base state, the per-property
metadata values seen (in traversal order) and the image sources seen: each
property slot holds the last value written, the tag set accumulates all tag
values, and the photo list appends all sources. -/
def specState (s : ConvState) (vals : String → List String)
    (srcs : List String) : ConvState :=
  { found_title := lastD (vals "title") s.found_title,
    found_tags := s.found_tags ∪ (vals "tag").toFinset,
    time_created := lastD (vals "created") s.time_created,
    time_updated := lastD (vals "updated") s.time_updated,
    latitide := lastD (vals "latitude") s.latitide,
    longitude := lastD (vals "longitude") s.longitude,
    altitude := lastD (vals "altitude") s.altitude,
    photos := s.photos ++ srcs }

/-- Parsed (pre-conversion) value of `createdOK`'s timestamp. -/
def tcUTC : ZonedDT :=
  { dt := { year := 2023, month := 1, day := 15, hour := 9, minute := 30,
            second := 0, microsec := 0 },
    offMicro := 0, abbr := "UTC" }

/-- Parsed (pre-conversion) value of `updatedOK`'s timestamp. -/
def tuUTC : ZonedDT :=
  { dt := { year := 2023, month := 1, day := 16, hour := 10, minute := 11,
            second := 12, microsec := 0 },
    offMicro := 0, abbr := "UTC" }

/-- A minimal document with valid timestamps and nothing else. -/
def docOK : HForest := forestOf [createdOK, updatedOK]

/-- Scenario D's entry: creation instant 2023-01-15 09:30:00.123456,
Europe/London, abbreviation GMT. -/
def entryD : EvernoteEntry :=
  { title := "Trip", text := "Hello world", tags := ∅,
    time_created := { dt := { year := 2023, month := 1, day := 15, hour := 9,
                              minute := 30, second := 0, microsec := 123456 },
                      offMicro := 0, abbr := "GMT" },
    time_updated := tuLondon,
    latitude := none, longitude := none, altitude := none, photos := [] }

/-- An entry sharing `entryD`'s creation instant but differing in every
other field. -/
def entryD2 : EvernoteEntry :=
  { title := "Other", text := "different", tags := {"a", "b"},
    time_created := { dt := { year := 2023, month := 1, day := 15, hour := 9,
                              minute := 30, second := 0, microsec := 123456 },
                      offMicro := 0, abbr := "GMT" },
    time_updated := { dt := { year := 2024, month := 6, day := 1, hour := 0,
                              minute := 0, second := 0, microsec := 0 },
                      offMicro := 3600000000, abbr := "BST" },
    latitude := some (.finite (mkRat 515 10)), longitude := some (.finite 0),
    altitude := some .nan, photos := ["x.jpg"] }

/-- A document whose only body content is a bare text node (no `div` at
all), plus valid timestamps. -/
def docX : HForest := forestOf [.text "hello", createdOK, updatedOK]

/-- The entry `docX` assembles to. -/
def entryX : EvernoteEntry :=
  { title := "", text := "hello", tags := ∅,
    time_created := tcLondon, time_updated := tuLondon,
    latitude := none, longitude := none, altitude := none, photos := [] }

/-- A document whose text sits inside a `div` without the `para` class. -/
def docW : HForest :=
  forestOf [.elem "div" [] (.cons (.text "x") .nil), createdOK, updatedOK]

/-- The entry `docW` assembles to (empty text). -/
def entryW : EvernoteEntry :=
  { title := "", text := "", tags := ∅,
    time_created := tcLondon, time_updated := tuLondon,
    latitude := none, longitude := none, altitude := none, photos := [] }

/-- A document with a malformed `created` timestamp and a non-numeric
latitude. -/
def docC5 : HForest :=
  forestOf [metaEl "created" "nope", updatedOK, metaEl "latitude" "abc"]

/-- Scenario C: a latitude marker with an empty value. -/
def docC : HForest := forestOf [createdOK, updatedOK, metaEl "latitude" ""]

/-- The entry `docC` assembles to (absent latitude). -/
def entryC : EvernoteEntry :=
  { title := "", text := "", tags := ∅,
    time_created := tcLondon, time_updated := tuLondon,
    latitude := none, longitude := none, altitude := none, photos := [] }

/-- Scenario B: two tag markers, both with value `x`. -/
def docB : HForest :=
  forestOf [createdOK, updatedOK, metaEl "tag" "x", metaEl "tag" "x"]

/-- The entry `docB` assembles to (tag set of size one). -/
def entryB : EvernoteEntry :=
  { title := "", text := "", tags := {"x"},
    time_created := tcLondon, time_updated := tuLondon,
    latitude := none, longitude := none, altitude := none, photos := [] }

/-- A document with two images sharing one source and one image without a
source attribute. -/
def docP : HForest :=
  forestOf [createdOK, updatedOK,
            .elem "img" [("src", "p1.jpg")] .nil,
            .elem "img" [] .nil,
            .elem "img" [("src", "p1.jpg")] .nil]

/-- The entry `docP` assembles to: both recorded sources, in encounter
order, and the default image markup for all three images in the text. -/
def entryP : EvernoteEntry :=
  { title := "", text := "![](p1.jpg)![]()![](p1.jpg)", tags := ∅,
    time_created := tcLondon, time_updated := tuLondon,
    latitude := none, longitude := none, altitude := none,
    photos := ["p1.jpg", "p1.jpg"] }

/-- A document with two `title` markers. -/
def docDup : HForest :=
  forestOf [metaEl "title" "first", metaEl "title" "second", createdOK, updatedOK]

/-- A document with one `tag` marker whose value is the empty string. -/
def docT : HForest := forestOf [metaEl "tag" "", createdOK, updatedOK]

/-- The entry `docT` assembles to (tag set containing the empty string). -/
def entryT : EvernoteEntry :=
  { title := "", text := "", tags := {""},
    time_created := tcLondon, time_updated := tuLondon,
    latitude := none, longitude := none, altitude := none, photos := [] }

example : strptimeZ "20230115T093000+0000" =
    some { dt := { year := 2023, month := 1, day := 15, hour := 9, minute := 30,
                   second := 0, microsec := 0 },
           offMicro := 0, abbr := "UTC" } := by decide

example : strptimeZ "not-a-date" = none := by decide

example : strptimeZ "" = none := by decide

example : strptimeZ "20230231T093000+0000" = none := by decide

example : pyFloat "51.5" = some (.finite (mkRat 515 10)) := by decide

example : pyFloat "" = none := by decide

example : pyFloat "abc" = none := by decide

example : astimezoneLondon { dt := { year := 2023, month := 1, day := 15, hour := 9,
                                     minute := 30, second := 0, microsec := 0 },
                             offMicro := 0, abbr := "UTC" } =
    { dt := { year := 2023, month := 1, day := 15, hour := 9, minute := 30,
              second := 0, microsec := 0 },
      offMicro := 0, abbr := "GMT" } := by decide

example : astimezoneLondon { dt := { year := 2023, month := 7, day := 15, hour := 9,
                                     minute := 30, second := 0, microsec := 0 },
                             offMicro := 0, abbr := "UTC" } =
    { dt := { year := 2023, month := 7, day := 15, hour := 10, minute := 30,
              second := 0, microsec := 0 },
      offMicro := 3600000000, abbr := "BST" } := by decide

/-! ## Helper lemmas -/

theorem lastD_append (xs ys : List String) (d : String) :
    lastD (xs ++ ys) d = lastD ys (lastD xs d) := by
  simp [lastD, List.foldl_append]

theorem lastD_toList (o : Option String) (d : String) :
    lastD o.toList d = o.getD d := by
  cases o <;> simp [lastD]

theorem lastD_eq_getLast (xs : List String) (d : String) :
    lastD xs d = xs.getLast?.getD d := by
  induction xs generalizing d with
  | nil => simp [lastD]
  | cons x xs ih =>
    cases xs with
    | nil => simp [lastD]
    | cons y ys =>
      have h : lastD (x :: y :: ys) d = lastD (y :: ys) x := rfl
      rw [h, ih, List.getLast?_cons_cons]
      cases hg : (y :: ys).getLast? with
      | none => simp at hg
      | some v => simp

theorem mk_data (s : String) : String.mk s.data = s := rfl

theorem allNlReplicate : ∀ l : List Char, (∀ b ∈ l, b = '\n') →
    l = List.replicate l.length '\n' := by
  intro l h
  induction l with
  | nil => rfl
  | cons c r ih =>
    have hc : c = '\n' := h c (by simp)
    have hr := ih (fun b hb => h b (by simp [hb]))
    rw [List.length_cons, List.replicate_succ, hc]
    exact congrArg _ hr

theorem dropTrailNL_spec (l : List Char) :
    dropTrailNL l ++ List.replicate (l.length - (dropTrailNL l).length) '\n' = l := by
  have hsplit : l.reverse.takeWhile (fun c => decide (c = '\n')) ++
      l.reverse.dropWhile (fun c => decide (c = '\n')) = l.reverse :=
    List.takeWhile_append_dropWhile _ _
  have htakerev : (l.reverse.takeWhile (fun c => decide (c = '\n'))).reverse =
      List.replicate ((l.reverse.takeWhile (fun c => decide (c = '\n'))).length) '\n' := by
    have hmem : ∀ b ∈ (l.reverse.takeWhile (fun c => decide (c = '\n'))).reverse,
        b = '\n' := by
      intro b hb
      have hb2 : b ∈ l.reverse.takeWhile (fun c => decide (c = '\n')) :=
        List.mem_reverse.mp hb
      have hp := List.mem_takeWhile_imp hb2
      exact of_decide_eq_true hp
    have := allNlReplicate _ hmem
    rwa [List.length_reverse] at this
  have hlen2 : (dropTrailNL l).length =
      (l.reverse.dropWhile (fun c => decide (c = '\n'))).length := by
    unfold dropTrailNL
    exact List.length_reverse _
  have hltot : l.length =
      (l.reverse.takeWhile (fun c => decide (c = '\n'))).length +
      (l.reverse.dropWhile (fun c => decide (c = '\n'))).length := by
    conv_lhs => rw [← List.length_reverse l, ← hsplit]
    rw [List.length_append]
  have hlen : l.length - (dropTrailNL l).length =
      (l.reverse.takeWhile (fun c => decide (c = '\n'))).length := by
    rw [hlen2, hltot]
    omega
  rw [hlen]
  unfold dropTrailNL
  conv_rhs => rw [← List.reverse_reverse l, ← hsplit]
  rw [List.reverse_append, htakerev]

theorem mergeNL_empty (acc : String) : mergeNL acc "" = acc := by
  unfold mergeNL dropLeadNL
  have hd : ("" : String).data = [] := rfl
  rw [hd]
  simp only [List.dropWhile_nil, List.length_nil, Nat.sub_zero, Nat.max_zero,
    List.append_nil]
  rw [dropTrailNL_spec]

theorem convert_meta_snd (s : ConvState) (attrs : List (String × String)) :
    (convert_meta s attrs).2 = "" := by
  unfold convert_meta
  cases getAttr attrs "itemprop" <;> cases getAttr attrs "content" <;> simp

theorem convert_img_snd (s : ConvState) (attrs : List (String × String)) (t : String) :
    (convert_img s attrs t).2 = default_convert_img attrs t := by
  unfold convert_img
  cases getAttr attrs "src" <;> simp

theorem specState_comp (s : ConvState) (v1 v2 : String → List String)
    (i1 i2 : List String) :
    specState (specState s v1 i1) v2 i2 =
      specState s (fun p => v1 p ++ v2 p) (i1 ++ i2) := by
  simp [specState, lastD_append, List.toFinset_append, Finset.union_assoc,
    List.append_assoc]

theorem convert_meta_state (s : ConvState) (attrs : List (String × String)) :
    (convert_meta s attrs).1 =
      specState s (fun p => (metaValOf p attrs).toList) [] := by
  unfold convert_meta metaValOf specState
  cases h1 : getAttr attrs "itemprop" with
  | none => simp [lastD]
  | some ip =>
    cases h2 : getAttr attrs "content" with
    | none => simp [lastD]
    | some c =>
      simp only [lastD_toList]
      split_ifs <;> simp_all [Finset.insert_eq, Finset.union_comm]

theorem convert_img_state (s : ConvState) (attrs : List (String × String))
    (t : String) :
    (convert_img s attrs t).1 =
      specState s (fun _ => []) ((getAttr attrs "src").toList) := by
  unfold convert_img specState
  cases h : getAttr attrs "src" <;> simp [lastD]

mutual
theorem stateChar_node (s : ConvState) :
    ∀ n : HNode, (convertNode s n).1 =
      specState s (fun p => metaValsN p n) (imgSrcsN n)
  | .text t => by
    simp [convertNode, metaValsN, imgSrcsN, specState, lastD]
  | .elem tag attrs cs => by
    have ih := stateChar_forest s "" cs
    simp only [convertNode]
    by_cases hm : tag = "meta"
    · rw [if_pos hm]
      rw [convert_meta_state, ih, specState_comp]
      simp [metaValsN, imgSrcsN, hm]
    · rw [if_neg hm]
      by_cases hd : tag = "div"
      · rw [if_pos hd]
        simp only []
        rw [ih]
        simp [metaValsN, imgSrcsN, hm, hd]
      · rw [if_neg hd]
        by_cases hi : tag = "img"
        · rw [if_pos hi]
          rw [convert_img_state, ih, specState_comp]
          simp [metaValsN, imgSrcsN, hm, hi]
        · rw [if_neg hi]
          simp only []
          rw [ih]
          simp [metaValsN, imgSrcsN, hm, hi]

theorem stateChar_forest (s : ConvState) (acc : String) :
    ∀ l : HForest, (convertForest s acc l).1 =
      specState s (fun p => metaValsF p l) (imgSrcsF l)
  | .nil => by
    simp [convertForest, metaValsF, imgSrcsF, specState, lastD]
  | .cons n rest => by
    simp only [convertForest]
    rw [stateChar_forest (convertNode s n).1 (joinText n acc (convertNode s n).2) rest,
        stateChar_node s n, specState_comp]
    simp [metaValsF, imgSrcsF]
end

theorem convertHtml_state (doc : HForest) :
    (convertHtml doc).1 =
      specState initConvState (fun p => metaValsF p doc) (imgSrcsF doc) := by
  unfold convertHtml
  exact stateChar_forest initConvState "" doc

theorem joinText_empty (n : HNode) (acc : String) : joinText n acc "" = acc := by
  cases n with
  | text t => simp [joinText]
  | elem tag attrs cs => exact mergeNL_empty acc

theorem textEmpty_node (s : ConvState) (n : HNode)
    (hc : containerOnlyN n = true) (hn : noParaN n = true) :
    (convertNode s n).2 = "" := by
  cases n with
  | text t => simp [containerOnlyN] at hc
  | elem tag attrs cs =>
    have htag : tag = "meta" ∨ tag = "div" := by
      simpa [containerOnlyN] using hc
    simp only [convertNode]
    by_cases hm : tag = "meta"
    · rw [if_pos hm]
      exact convert_meta_snd _ _
    · have hd : tag = "div" := htag.resolve_left hm
      rw [if_neg hm, if_pos hd]
      have hnp : hasPara attrs = false := by
        simp [noParaN, hd] at hn
        exact hn.1
      simp [convert_div, hnp]

theorem textEmpty_forest (s : ConvState) (acc : String) :
    ∀ l : HForest, containerOnlyF l = true → noParaF l = true →
      (convertForest s acc l).2 = acc
  | .nil, _, _ => by simp [convertForest]
  | .cons n rest, hc, hn => by
    simp only [convertForest]
    have hc1 := (Bool.and_eq_true _ _).mp (by simpa [containerOnlyF] using hc)
    have hn1 := (Bool.and_eq_true _ _).mp (by simpa [noParaF] using hn)
    rw [textEmpty_node s n hc1.1 hn1.1, joinText_empty]
    exact textEmpty_forest (convertNode s n).1 acc rest hc1.2 hn1.2

theorem coordOf_none_iff (raw : String) :
    coordOf raw = none ↔ raw ≠ "" ∧ pyFloat raw = none := by
  unfold coordOf
  split_ifs with h
  · simp [h]
  · cases hf : pyFloat raw <;> simp [h, hf]

theorem fromHtml_inv (doc : HForest) (e : EvernoteEntry)
    (h : fromHtml doc = .entry e) :
    e.title = (convertHtml doc).1.found_title ∧
    e.text = pyStrip (convertHtml doc).2 ∧
    e.tags = (convertHtml doc).1.found_tags ∧
    e.photos = (convertHtml doc).1.photos ∧
    coordOf (convertHtml doc).1.latitide = some e.latitude ∧
    coordOf (convertHtml doc).1.longitude = some e.longitude ∧
    coordOf (convertHtml doc).1.altitude = some e.altitude ∧
    ∃ tc tu, strptimeZ (convertHtml doc).1.time_created = some tc ∧
      strptimeZ (convertHtml doc).1.time_updated = some tu ∧
      e.time_created = astimezoneLondon tc ∧ e.time_updated = astimezoneLondon tu := by
  simp only [fromHtml] at h
  cases htc : strptimeZ ((convertHtml doc).1.time_created) with
  | none => rw [htc] at h; simp at h
  | some tc =>
    rw [htc] at h
    cases htu : strptimeZ ((convertHtml doc).1.time_updated) with
    | none => rw [htu] at h; simp at h
    | some tu =>
      rw [htu] at h
      cases hla : coordOf ((convertHtml doc).1.latitide) with
      | none => rw [hla] at h; simp at h
      | some la =>
        rw [hla] at h
        cases hlo : coordOf ((convertHtml doc).1.longitude) with
        | none => rw [hlo] at h; simp at h
        | some lo =>
          rw [hlo] at h
          cases hal : coordOf ((convertHtml doc).1.altitude) with
          | none => rw [hal] at h; simp at h
          | some al =>
            rw [hal] at h
            simp only [AssembleResult.entry.injEq] at h
            subst h
            exact ⟨rfl, rfl, rfl, rfl, rfl, rfl, rfl, tc, tu, rfl, rfl, rfl, rfl⟩

theorem fromHtml_tsErr_iff (doc : HForest) :
    fromHtml doc = .error .timestampFormat ↔
      strptimeZ (convertHtml doc).1.time_created = none ∨
      strptimeZ (convertHtml doc).1.time_updated = none := by
  simp only [fromHtml]
  cases htc : strptimeZ ((convertHtml doc).1.time_created) with
  | none => simp
  | some tc =>
    cases htu : strptimeZ ((convertHtml doc).1.time_updated) with
    | none => simp
    | some tu =>
      cases hla : coordOf ((convertHtml doc).1.latitide) with
      | none => simp
      | some la =>
        cases hlo : coordOf ((convertHtml doc).1.longitude) with
        | none => simp
        | some lo =>
          cases hal : coordOf ((convertHtml doc).1.altitude) with
          | none => simp
          | some al => simp

theorem fromHtml_fltErr (doc : HForest) (tc tu : ZonedDT)
    (htc : strptimeZ (convertHtml doc).1.time_created = some tc)
    (htu : strptimeZ (convertHtml doc).1.time_updated = some tu)
    (hco : coordOf (convertHtml doc).1.latitide = none ∨
      coordOf (convertHtml doc).1.longitude = none ∨
      coordOf (convertHtml doc).1.altitude = none) :
    fromHtml doc = .error .floatLiteral := by
  simp only [fromHtml, htc, htu]
  rcases hco with h | h | h
  · simp [h]
  · cases hla : coordOf ((convertHtml doc).1.latitide) <;> simp [h, hla]
  · cases hla : coordOf ((convertHtml doc).1.latitide) <;>
      cases hlo : coordOf ((convertHtml doc).1.longitude) <;> simp [h, hla, hlo]

theorem fromHtml_entry_of (doc : HForest) (tc tu : ZonedDT)
    (la lo al : Option PFloat)
    (htc : strptimeZ (convertHtml doc).1.time_created = some tc)
    (htu : strptimeZ (convertHtml doc).1.time_updated = some tu)
    (hla : coordOf (convertHtml doc).1.latitide = some la)
    (hlo : coordOf (convertHtml doc).1.longitude = some lo)
    (hal : coordOf (convertHtml doc).1.altitude = some al) :
    fromHtml doc = .entry
      { title := (convertHtml doc).1.found_title,
        text := pyStrip (convertHtml doc).2,
        tags := (convertHtml doc).1.found_tags,
        time_created := astimezoneLondon tc,
        time_updated := astimezoneLondon tu,
        latitude := la, longitude := lo, altitude := al,
        photos := (convertHtml doc).1.photos } := by
  simp [fromHtml, htc, htu, hla, hlo, hal]

/-! ## Claims -/

/-- C1: assembly of an entry raises a timestamp-parse error if and only if
the raw `created` or `updated` string is absent (empty — the parser rejects
the empty string) or is not accepted by the fixed format
`%Y%m%dT%H%M%S%z`; on such an error no entry is produced (the result is the
error, not an entry), and when both strings parse, both parsed instants are
converted into the fixed display timezone (Europe/London) in the entry. -/
theorem claim_C1 (doc : HForest) :
    strptimeZ "" = none ∧
    (fromHtml doc = .error .timestampFormat ↔
      strptimeZ (convertHtml doc).1.time_created = none ∨
      strptimeZ (convertHtml doc).1.time_updated = none) ∧
    (∀ tc tu, strptimeZ (convertHtml doc).1.time_created = some tc →
      strptimeZ (convertHtml doc).1.time_updated = some tu →
      fromHtml doc = .error .floatLiteral ∨
      ∃ e, fromHtml doc = .entry e ∧ e.time_created = astimezoneLondon tc ∧
        e.time_updated = astimezoneLondon tu) := by
  refine ⟨by decide, fromHtml_tsErr_iff doc, ?_⟩
  intro tc tu htc htu
  cases hla : coordOf ((convertHtml doc).1.latitide) with
  | none => exact Or.inl (fromHtml_fltErr doc tc tu htc htu (Or.inl hla))
  | some la =>
    cases hlo : coordOf ((convertHtml doc).1.longitude) with
    | none => exact Or.inl (fromHtml_fltErr doc tc tu htc htu (Or.inr (Or.inl hlo)))
    | some lo =>
      cases hal : coordOf ((convertHtml doc).1.altitude) with
      | none =>
        exact Or.inl (fromHtml_fltErr doc tc tu htc htu (Or.inr (Or.inr hal)))
      | some al =>
        exact Or.inr ⟨_, fromHtml_entry_of doc tc tu la lo al htc htu hla hlo hal,
          rfl, rfl⟩

/-- C1 witness: on the concrete document `docOK` both timestamps parse to
the stated values and the conclusion of `claim_C1` holds there. -/
theorem claim_C1_witness :
    fromHtml docOK = .error .floatLiteral ∨
    ∃ e, fromHtml docOK = .entry e ∧ e.time_created = astimezoneLondon tcUTC ∧
      e.time_updated = astimezoneLondon tuUTC :=
  (claim_C1 docOK).2.2 tcUTC tuUTC (by decide) (by decide)

/-- C2: the derived Markdown path is a function of the creation instant
alone; it equals the directory `YYYY/MM/DD` joined with the file name
`YYYY-MM-DD-HH-MM-SS-ffffff-ZONE.md`, all fields from the creation instant
in the display timezone; and the Scenario D instant (2023-01-15
09:30:00.123456, Europe/London, abbreviation GMT) yields exactly
`2023/01/15/2023-01-15-09-30-00-123456-GMT.md`. -/
theorem claim_C2 :
    (∀ e1 e2 : EvernoteEntry, e1.time_created = e2.time_created →
      markdown_directory e1 = markdown_directory e2 ∧
      markdown_file e1 = markdown_file e2) ∧
    (∀ e : EvernoteEntry, markdown_file e =
      markdown_directory e ++ "/" ++
        pad4 e.time_created.dt.year ++ "-" ++ pad2 e.time_created.dt.month ++ "-" ++
        pad2 e.time_created.dt.day ++ "-" ++ pad2 e.time_created.dt.hour ++ "-" ++
        pad2 e.time_created.dt.minute ++ "-" ++ pad2 e.time_created.dt.second ++ "-" ++
        pad6 e.time_created.dt.microsec ++ "-" ++ e.time_created.abbr ++ ".md") ∧
    markdown_file entryD = "2023/01/15/2023-01-15-09-30-00-123456-GMT.md" := by
  refine ⟨?_, fun e => rfl, by decide⟩
  intro e1 e2 h
  constructor <;> simp [markdown_directory, markdown_file, h]

/-- C2 witness: `entryD` and `entryD2` differ in update time, title, tags,
text, coordinates and photos but share the creation instant, so their
derived paths coincide. -/
theorem claim_C2_witness :
    markdown_directory entryD = markdown_directory entryD2 ∧
    markdown_file entryD = markdown_file entryD2 :=
  claim_C2.1 entryD entryD2 (by decide)

/-- C3 counterexample: `docX` contains no paragraph-marked container, yet
its entry's text is `hello`, not the empty string — bare text outside `div`
containers passes through the conversion. -/
theorem claim_C3_counter :
    noParaF docX = true ∧ fromHtml docX = .entry entryX ∧ entryX.text ≠ "" := by
  refine ⟨by decide, by decide, by decide⟩

/-- C3 (amended): for every document all of whose top-level nodes are
metadata markers or `div` containers — the layout of an Evernote export,
where every piece of content lies inside such a container — if no `div`
carries the `para` class marker, the resulting entry's text is empty.
Both handlers return `""` regardless of their children's text, so the
statement holds whatever markup (text, images, rules, paragraphs, ...) the
containers hold, and it depends only on the two handlers this repository
overrides. -/
theorem claim_C3_amended (doc : HForest) (hcont : containerOnlyF doc = true)
    (hnp : noParaF doc = true) :
    ∀ e, fromHtml doc = .entry e → e.text = "" := by
  intro e he
  have hinv := fromHtml_inv doc e he
  have htxt : (convertHtml doc).2 = "" :=
    textEmpty_forest initConvState "" doc hcont hnp
  rw [hinv.2.1, htxt]
  decide

/-- C3 witness: `docW` keeps its text inside an unmarked `div` and its
entry's text is empty. -/
theorem claim_C3_witness :
    fromHtml docW = .entry entryW ∧ entryW.text = "" :=
  ⟨by decide, claim_C3_amended docW (by decide) (by decide) entryW (by decide)⟩

/-- C4: a `div` element visited during extraction contributes exactly its
inner text stripped of leading and trailing whitespace followed by one line
break when its class list contains the `para` marker, and contributes no
text of its own otherwise (including when the class attribute is missing);
in both cases it leaves the side-channel state exactly as its children left
it. -/
theorem claim_C4 (s : ConvState) (attrs : List (String × String)) (cs : HForest) :
    (convertNode s (.elem "div" attrs cs)).2 =
      (if hasPara attrs then pyStrip (convertForest s "" cs).2 ++ "\n" else "") ∧
    (convertNode s (.elem "div" attrs cs)).1 = (convertForest s "" cs).1 := by
  constructor <;> simp [convertNode, convert_div]

/-- C5 counterexample: on `docC5` the latitude raw string is `abc`
(non-empty and non-numeric, `float` rejects it), yet assembly fails with
the timestamp-parse error — not the numeric-parse error the claim
promises — because the malformed `created` string is parsed first. -/
theorem claim_C5_counter :
    (convertHtml docC5).1.latitide = "abc" ∧ pyFloat "abc" = none ∧
    fromHtml docC5 = .error .timestampFormat ∧
    fromHtml docC5 ≠ .error .floatLiteral := by
  refine ⟨by decide, by decide, by decide, by decide⟩

/-- C5 (amended): for each of latitude, longitude and altitude
independently: an empty raw string yields an absent field (`none`, not
zero, not an error); a raw string `float` accepts yields exactly that
value; and a non-empty raw string `float` rejects makes assembly fail with
a numeric-parse error provided both timestamp strings parse — when a
timestamp is also malformed, the timestamp-parse error takes precedence. -/
theorem claim_C5_amended (doc : HForest) :
    ((convertHtml doc).1.latitide = "" →
      ∀ e, fromHtml doc = .entry e → e.latitude = none) ∧
    (∀ v, pyFloat ((convertHtml doc).1.latitide) = some v →
      ∀ e, fromHtml doc = .entry e → e.latitude = some v) ∧
    ((convertHtml doc).1.latitide ≠ "" →
      pyFloat ((convertHtml doc).1.latitide) = none →
      ∀ tc tu, strptimeZ (convertHtml doc).1.time_created = some tc →
        strptimeZ (convertHtml doc).1.time_updated = some tu →
        fromHtml doc = .error .floatLiteral) ∧
    ((convertHtml doc).1.longitude = "" →
      ∀ e, fromHtml doc = .entry e → e.longitude = none) ∧
    (∀ v, pyFloat ((convertHtml doc).1.longitude) = some v →
      ∀ e, fromHtml doc = .entry e → e.longitude = some v) ∧
    ((convertHtml doc).1.longitude ≠ "" →
      pyFloat ((convertHtml doc).1.longitude) = none →
      ∀ tc tu, strptimeZ (convertHtml doc).1.time_created = some tc →
        strptimeZ (convertHtml doc).1.time_updated = some tu →
        fromHtml doc = .error .floatLiteral) ∧
    ((convertHtml doc).1.altitude = "" →
      ∀ e, fromHtml doc = .entry e → e.altitude = none) ∧
    (∀ v, pyFloat ((convertHtml doc).1.altitude) = some v →
      ∀ e, fromHtml doc = .entry e → e.altitude = some v) ∧
    ((convertHtml doc).1.altitude ≠ "" →
      pyFloat ((convertHtml doc).1.altitude) = none →
      ∀ tc tu, strptimeZ (convertHtml doc).1.time_created = some tc →
        strptimeZ (convertHtml doc).1.time_updated = some tu →
        fromHtml doc = .error .floatLiteral) := by
  have hempty : pyFloat "" = none := by decide
  refine ⟨?_, ?_, ?_, ?_, ?_, ?_, ?_, ?_, ?_⟩
  · intro hraw e he
    have h2 := (fromHtml_inv doc e he).2.2.2.2.1
    rw [hraw] at h2
    simpa [coordOf] using h2.symm
  · intro v hv e he
    have h2 := (fromHtml_inv doc e he).2.2.2.2.1
    by_cases hraw : (convertHtml doc).1.latitide = ""
    · rw [hraw, hempty] at hv
      simp at hv
    · unfold coordOf at h2
      rw [if_neg hraw, hv] at h2
      simpa using h2.symm
  · intro hraw hpf tc tu htc htu
    exact fromHtml_fltErr doc tc tu htc htu
      (Or.inl ((coordOf_none_iff _).mpr ⟨hraw, hpf⟩))
  · intro hraw e he
    have h2 := (fromHtml_inv doc e he).2.2.2.2.2.1
    rw [hraw] at h2
    simpa [coordOf] using h2.symm
  · intro v hv e he
    have h2 := (fromHtml_inv doc e he).2.2.2.2.2.1
    by_cases hraw : (convertHtml doc).1.longitude = ""
    · rw [hraw, hempty] at hv
      simp at hv
    · unfold coordOf at h2
      rw [if_neg hraw, hv] at h2
      simpa using h2.symm
  · intro hraw hpf tc tu htc htu
    exact fromHtml_fltErr doc tc tu htc htu
      (Or.inr (Or.inl ((coordOf_none_iff _).mpr ⟨hraw, hpf⟩)))
  · intro hraw e he
    have h2 := (fromHtml_inv doc e he).2.2.2.2.2.2.1
    rw [hraw] at h2
    simpa [coordOf] using h2.symm
  · intro v hv e he
    have h2 := (fromHtml_inv doc e he).2.2.2.2.2.2.1
    by_cases hraw : (convertHtml doc).1.altitude = ""
    · rw [hraw, hempty] at hv
      simp at hv
    · unfold coordOf at h2
      rw [if_neg hraw, hv] at h2
      simpa using h2.symm
  · intro hraw hpf tc tu htc htu
    exact fromHtml_fltErr doc tc tu htc htu
      (Or.inr (Or.inr ((coordOf_none_iff _).mpr ⟨hraw, hpf⟩)))

/-- C5 witness: Scenario C — a latitude marker with an empty value yields
an entry whose latitude is absent. -/
theorem claim_C5_witness :
    fromHtml docC = .entry entryC ∧ entryC.latitude = none :=
  ⟨by decide, (claim_C5_amended docC).1 (by decide) entryC (by decide)⟩

/-- C6: the entry's tag set is exactly the finite set of the values of the
well-formed `tag` markers of the document, so its size is the number of
distinct values, independent of marker order and repetition. -/
theorem claim_C6 (doc : HForest) (e : EvernoteEntry)
    (he : fromHtml doc = .entry e) :
    e.tags = (metaValsF "tag" doc).toFinset ∧
    e.tags.card = (metaValsF "tag" doc).dedup.length := by
  have hinv := fromHtml_inv doc e he
  have h1 : e.tags = (metaValsF "tag" doc).toFinset := by
    rw [hinv.2.2.1, convertHtml_state]
    simp [specState, initConvState]
  refine ⟨h1, ?_⟩
  rw [h1]
  exact List.card_toFinset _

/-- C6 witness: Scenario B — two tag markers with value `x` produce the tag
set of size one. -/
theorem claim_C6_witness :
    fromHtml docB = .entry entryB ∧ entryB.tags = {"x"} ∧ entryB.tags.card = 1 := by
  refine ⟨by decide, ?_, ?_⟩
  · rw [(claim_C6 docB entryB (by decide)).1]
    decide
  · rw [(claim_C6 docB entryB (by decide)).2]
    decide

/-- C7: an image element's contribution to the converted text is exactly
the default image-to-text conversion whether or not a source attribute is
present, and its source attribute (when present) is appended to the photo
list; document-wide, an entry's photo list is the list of `src` attributes
of all images in encounter order, duplicates kept. -/
theorem claim_C7 :
    (∀ (s : ConvState) (attrs : List (String × String)) (t : String),
      (convert_img s attrs t).2 = default_convert_img attrs t ∧
      (convert_img s attrs t).1.photos = s.photos ++ (getAttr attrs "src").toList) ∧
    (∀ (doc : HForest) (e : EvernoteEntry), fromHtml doc = .entry e →
      e.photos = imgSrcsF doc) := by
  constructor
  · intro s attrs t
    refine ⟨convert_img_snd s attrs t, ?_⟩
    rw [convert_img_state]
    simp [specState]
  · intro doc e he
    have hinv := fromHtml_inv doc e he
    rw [hinv.2.2.2.1, convertHtml_state]
    simp [specState, initConvState]

/-- C7 witness: `docP` has two images with source `p1.jpg` and one without
a source; the entry's photo list keeps both occurrences in order and the
text shows the default conversion of all three images. -/
theorem claim_C7_witness :
    fromHtml docP = .entry entryP ∧ entryP.photos = ["p1.jpg", "p1.jpg"] := by
  refine ⟨by decide, ?_⟩
  rw [claim_C7.2 docP entryP (by decide)]
  decide

/-- C8: a metadata-marker element missing its property-name attribute or
its value attribute, or carrying an unrecognised property name, leaves the
side channels untouched and contributes no text; and the handler's textual
contribution is the empty string for every input (it is a total function
and never raises). -/
theorem claim_C8 :
    (∀ (s : ConvState) (attrs : List (String × String)),
      (getAttr attrs "itemprop" = none ∨ getAttr attrs "content" = none ∨
        ∀ ip, getAttr attrs "itemprop" = some ip → ip ∉ recognizedProps) →
      convert_meta s attrs = (s, "")) ∧
    (∀ (s : ConvState) (attrs : List (String × String)),
      (convert_meta s attrs).2 = "") := by
  constructor
  · intro s attrs h
    unfold convert_meta
    cases h1 : getAttr attrs "itemprop" with
    | none => rfl
    | some ip =>
      cases h2 : getAttr attrs "content" with
      | none => rfl
      | some c =>
        rcases h with h | h | h
        · rw [h1] at h
          simp at h
        · rw [h2] at h
          simp at h
        · have hip := h ip h1
          simp [recognizedProps, nonTagProps] at hip
          simp [hip.1, hip.2.1, hip.2.2.1, hip.2.2.2.1, hip.2.2.2.2.1,
            hip.2.2.2.2.2.1, hip.2.2.2.2.2.2]
  · exact convert_meta_snd

/-- C8 witness: a marker missing its value attribute and a marker with the
unrecognised property `color` both leave the initial state untouched and
contribute no text. -/
theorem claim_C8_witness :
    convert_meta initConvState [("itemprop", "title")] = (initConvState, "") ∧
    convert_meta initConvState [("itemprop", "color"), ("content", "x")] =
      (initConvState, "") := by
  constructor
  · exact claim_C8.1 _ _ (Or.inr (Or.inl (by decide)))
  · refine claim_C8.1 _ _ (Or.inr (Or.inr ?_))
    intro ip h
    have hip : ip = "color" := by
      simp [getAttr] at h
      exact h.symm
    rw [hip]
    decide

/-- C9: for each recognised non-tag property, the raw value the extractor
stores is the value of the last well-formed marker with that property in
traversal order (or the empty initial value when there is none); in
particular the entry's title is the last `title` marker's value. -/
theorem claim_C9 :
    (∀ p, p ∈ nonTagProps → ∀ doc : HForest,
      fieldFor p (convertHtml doc).1 = ((metaValsF p doc).getLast?).getD "") ∧
    (∀ (doc : HForest) (e : EvernoteEntry), fromHtml doc = .entry e →
      e.title = ((metaValsF "title" doc).getLast?).getD "") := by
  have hmain : ∀ p, p ∈ nonTagProps → ∀ doc : HForest,
      fieldFor p (convertHtml doc).1 = ((metaValsF p doc).getLast?).getD "" := by
    intro p hp doc
    rw [convertHtml_state, ← lastD_eq_getLast]
    fin_cases hp <;> simp [fieldFor, specState, initConvState]
  refine ⟨hmain, ?_⟩
  intro doc e he
  have hinv := fromHtml_inv doc e he
  rw [hinv.1]
  have h := hmain "title" (by decide) doc
  simpa [fieldFor] using h

/-- C9 witness: with two `title` markers (`first` then `second`) the stored
title is `second`. -/
theorem claim_C9_witness :
    fieldFor "title" (convertHtml docDup).1 = "second" := by
  rw [claim_C9.1 "title" (by decide) docDup]
  decide

/-- C10: a well-formed `tag` marker whose value is the empty string adds
the empty string to the tag set (for any prior state), and the resulting
entry's tag set can therefore contain the empty string, as `docT` shows. -/
theorem claim_C10 :
    (∀ s : ConvState,
      (convert_meta s [("itemprop", "tag"), ("content", "")]).1.found_tags =
        insert "" s.found_tags) ∧
    fromHtml docT = .entry entryT ∧ "" ∈ entryT.tags := by
  refine ⟨fun s => rfl, by decide, by decide⟩
